import Mathlib

/-!
Verification of the ElegantRL training core (src/Main.py, src/BetaWarning/AgentZoo.py).

Shallow embedding conventions:
* numpy / torch float values are embedded as exact rationals (ℚ);
* the preallocated storage arrays (`np.empty` / `torch.empty`) are embedded as
  total functions `ℕ → α` whose initial values are an arbitrary parameter
  (matching the unspecified contents of a freshly allocated array);
* `torch.randint(high, size=(n,))` is embedded nondeterministically: an
  arbitrary draw function `ℕ → ℕ` reduced modulo `high`, so every index vector
  in the range is a possible outcome (distributional uniformity is the
  library's contract, not code of this repository).
-/

namespace ElegantRL

/-! ## ReplayBufferGPU (src/Main.py lines 241-267, base class lines 190-207)

Fields follow the Python attribute names.  `ReplayBufferBase.__init__` sets
`now_len = 0`, `next_idx = 0`, `if_full = False`; `ReplayBufferGPU.__init__`
sets `max_len` and allocates the two arrays. -/

structure ReplayBufferGPU (S O : Type) where
  max_len : ℕ
  now_len : ℕ
  next_idx : ℕ
  if_full : Bool
  all_state : ℕ → S
  all_other : ℕ → O

namespace ReplayBufferGPU

variable {S O : Type}

/-- `ReplayBufferGPU(max_len, ...)`: fresh buffer; `s0`/`o0` are the arbitrary
contents of the freshly allocated (`torch.empty`) arrays. -/
def mk_buffer (max_len : ℕ) (s0 : ℕ → S) (o0 : ℕ → O) : ReplayBufferGPU S O :=
  ⟨max_len, 0, 0, false, s0, o0⟩

/-- `ReplayBufferGPU.append_memo`: write at `next_idx`, advance, set `if_full`
and wrap to 0 when `next_idx >= max_len`. -/
def append_memo (b : ReplayBufferGPU S O) (state : S) (other : O) : ReplayBufferGPU S O :=
  let st := Function.update b.all_state b.next_idx state
  let ot := Function.update b.all_other b.next_idx other
  if b.max_len ≤ b.next_idx + 1 then
    { b with all_state := st, all_other := ot, if_full := true, next_idx := 0 }
  else
    { b with all_state := st, all_other := ot, next_idx := b.next_idx + 1 }

/-- `ReplayBufferBase.update__now_len__before_sample`:
`now_len = max_len if if_full else next_idx`. -/
def update__now_len__before_sample (b : ReplayBufferGPU S O) : ReplayBufferGPU S O :=
  { b with now_len := if b.if_full then b.max_len else b.next_idx }

/-- `ReplayBufferBase.empty_memories__before_explore`. -/
def empty_memories__before_explore (b : ReplayBufferGPU S O) : ReplayBufferGPU S O :=
  { b with next_idx := 0, now_len := 0, if_full := false }

/-- A whole sequence of `append_memo` calls, oldest first. -/
def append_all (b : ReplayBufferGPU S O) (l : List (S × O)) : ReplayBufferGPU S O :=
  l.foldl (fun acc e => acc.append_memo e.1 e.2) b

end ReplayBufferGPU

/-! ## ReplayBufferCPU (src/Main.py lines 210-238)

The Python class inherits `if_full` (set `False` in `ReplayBufferBase.__init__`
and read by `update__now_len__before_sample`) but its constructor sets a
*different* attribute `is_full = True`, and `append_memo` sets `is_full`
(not `if_full`) on wraparound.  Both attributes are modelled faithfully. -/

structure ReplayBufferCPU (S O : Type) where
  max_len : ℕ
  now_len : ℕ
  next_idx : ℕ
  if_full : Bool
  is_full : Bool
  all_state : ℕ → S
  all_other : ℕ → O

namespace ReplayBufferCPU

variable {S O : Type}

/-- `ReplayBufferCPU(max_len, state_dim, action_dim)`: note `is_full = True`
set by the constructor while the inherited `if_full` stays `False`. -/
def mk_buffer (max_len : ℕ) (s0 : ℕ → S) (o0 : ℕ → O) : ReplayBufferCPU S O :=
  ⟨max_len, 0, 0, false, true, s0, o0⟩

/-- `ReplayBufferCPU.append_memo`: on wraparound it sets `is_full = True`
(the attribute `update__now_len__before_sample` never reads). -/
def append_memo (b : ReplayBufferCPU S O) (state : S) (other : O) : ReplayBufferCPU S O :=
  let st := Function.update b.all_state b.next_idx state
  let ot := Function.update b.all_other b.next_idx other
  if b.max_len ≤ b.next_idx + 1 then
    { b with all_state := st, all_other := ot, is_full := true, next_idx := 0 }
  else
    { b with all_state := st, all_other := ot, next_idx := b.next_idx + 1 }

/-- Inherited `ReplayBufferBase.update__now_len__before_sample`: reads `if_full`. -/
def update__now_len__before_sample (b : ReplayBufferCPU S O) : ReplayBufferCPU S O :=
  { b with now_len := if b.if_full then b.max_len else b.next_idx }

/-- Inherited `ReplayBufferBase.empty_memories__before_explore`. -/
def empty_memories__before_explore (b : ReplayBufferCPU S O) : ReplayBufferCPU S O :=
  { b with next_idx := 0, now_len := 0, if_full := false }

/-- A whole sequence of `append_memo` calls, oldest first. -/
def append_all (b : ReplayBufferCPU S O) (l : List (S × O)) : ReplayBufferCPU S O :=
  l.foldl (fun acc e => acc.append_memo e.1 e.2) b

end ReplayBufferCPU

/-! ## Ring-buffer content: which append wrote a slot last

`lastWrite start cap n j` is the index of the last append (among appends
`0, ..., n-1`, the k-th landing at slot `(start + k) % cap`) that wrote
slot `j`, if any. -/

def lastWrite (start cap : ℕ) : ℕ → ℕ → Option ℕ
  | 0, _ => none
  | n + 1, j => if (start + n) % cap = j then some n else lastWrite start cap n j

theorem lastWrite_lt {start cap n j k : ℕ} (h : lastWrite start cap n j = some k) : k < n := by
  induction n with
  | zero => simp [lastWrite] at h
  | succ m ih =>
    rw [lastWrite] at h
    split at h
    · simp only [Option.some.injEq] at h
      omega
    · exact Nat.lt_succ_of_lt (ih h)

theorem lastWrite_small {cap : ℕ} (n : ℕ) (hn : n ≤ cap) (j : ℕ) :
    lastWrite 0 cap n j = if j < n then some j else none := by
  induction n with
  | zero => simp [lastWrite]
  | succ m ih =>
    rw [lastWrite, Nat.zero_add, Nat.mod_eq_of_lt (by omega)]
    rcases Nat.lt_trichotomy j m with hj | hj | hj
    · rw [if_neg (by omega), ih (by omega), if_pos hj, if_pos (by omega)]
    · rw [if_pos hj.symm, if_pos (by omega), hj]
    · rw [if_neg (by omega), ih (by omega), if_neg (by omega), if_neg (by omega)]

theorem lastWrite_full {cap : ℕ} (hcap : 0 < cap) :
    ∀ N, cap ≤ N → ∀ i, i < cap →
      lastWrite 0 cap N ((N + i) % cap) = some (N - cap + i) := by
  intro N
  induction N with
  | zero => intro h; omega
  | succ m ih =>
    intro hm i hi
    rw [lastWrite, Nat.zero_add]
    by_cases hlast : i = cap - 1
    · have h1 : (m + 1 + i) % cap = m % cap := by
        have : m + 1 + i = m + cap := by omega
        rw [this, Nat.add_mod_right]
      rw [if_pos h1.symm]
      congr 1
      omega
    · have hne : m % cap ≠ (m + 1 + i) % cap := by
        intro h
        have hme : Nat.ModEq cap (m + 0) (m + (1 + i)) := by
          show (m + 0) % cap = (m + (1 + i)) % cap
          have harr : m + (1 + i) = m + 1 + i := by omega
          rw [harr, Nat.add_zero]
          exact h
        have h1i : Nat.ModEq cap 0 (1 + i) := Nat.ModEq.add_left_cancel' m hme
        have h0 : 0 % cap = (1 + i) % cap := h1i
        rw [Nat.zero_mod, Nat.mod_eq_of_lt (by omega)] at h0
        omega
      rw [if_neg hne]
      rcases Nat.lt_or_ge m cap with hmc | hmc
      · -- here m + 1 = cap exactly
        have hmeq : m + 1 = cap := by omega
        have hmod : (m + 1 + i) % cap = i := by
          have harr : m + 1 + i = i + cap := by omega
          rw [harr, Nat.add_mod_right, Nat.mod_eq_of_lt hi]
        rw [hmod, lastWrite_small m (by omega) i, if_pos (by omega)]
        congr 1
        omega
      · have hstep : (m + 1 + i) % cap = (m + (i + 1)) % cap := by congr 1; omega
        rw [hstep, ih hmc (i + 1) (by omega)]
        congr 1
        omega

namespace ReplayBufferGPU

variable {S O : Type}

theorem append_memo_max_len (b : ReplayBufferGPU S O) (s : S) (o : O) :
    (b.append_memo s o).max_len = b.max_len := by
  simp only [append_memo]; split <;> rfl

theorem append_memo_all_state (b : ReplayBufferGPU S O) (s : S) (o : O) :
    (b.append_memo s o).all_state = Function.update b.all_state b.next_idx s := by
  simp only [append_memo]; split <;> rfl

theorem append_memo_all_other (b : ReplayBufferGPU S O) (s : S) (o : O) :
    (b.append_memo s o).all_other = Function.update b.all_other b.next_idx o := by
  simp only [append_memo]; split <;> rfl

theorem append_memo_next_idx (b : ReplayBufferGPU S O) (s : S) (o : O)
    (h : b.next_idx < b.max_len) :
    (b.append_memo s o).next_idx = (b.next_idx + 1) % b.max_len := by
  simp only [append_memo]
  split
  · next hc =>
      show 0 = (b.next_idx + 1) % b.max_len
      have hm : b.next_idx + 1 = b.max_len := by omega
      rw [hm, Nat.mod_self]
  · next hc =>
      show b.next_idx + 1 = (b.next_idx + 1) % b.max_len
      rw [Nat.mod_eq_of_lt (by omega)]

theorem append_memo_if_full (b : ReplayBufferGPU S O) (s : S) (o : O) :
    (b.append_memo s o).if_full = (b.if_full || decide (b.max_len ≤ b.next_idx + 1)) := by
  simp only [append_memo]
  split
  · next hc => simp [hc]
  · next hc => simp [hc]

theorem append_memo_next_idx_lt (b : ReplayBufferGPU S O) (s : S) (o : O)
    (h : b.next_idx < b.max_len) :
    (b.append_memo s o).next_idx < (b.append_memo s o).max_len := by
  rw [append_memo_next_idx b s o h, append_memo_max_len]
  exact Nat.mod_lt _ (by omega)

theorem append_all_max_len (b : ReplayBufferGPU S O) (l : List (S × O)) :
    (b.append_all l).max_len = b.max_len := by
  induction l generalizing b with
  | nil => rfl
  | cons e l ih =>
    show ((b.append_memo e.1 e.2).append_all l).max_len = b.max_len
    rw [ih, append_memo_max_len]

theorem append_all_next_idx (b : ReplayBufferGPU S O) (l : List (S × O))
    (h : b.next_idx < b.max_len) :
    (b.append_all l).next_idx = (b.next_idx + l.length) % b.max_len := by
  induction l generalizing b with
  | nil => exact (Nat.mod_eq_of_lt h).symm
  | cons e l ih =>
    show ((b.append_memo e.1 e.2).append_all l).next_idx = _
    rw [ih _ (append_memo_next_idx_lt b e.1 e.2 h), append_memo_next_idx b e.1 e.2 h,
      append_memo_max_len, Nat.mod_add_mod]
    congr 1
    simp [List.length_cons]
    omega

theorem append_all_if_full (b : ReplayBufferGPU S O) (l : List (S × O))
    (h : b.next_idx < b.max_len) :
    (b.append_all l).if_full = (b.if_full || decide (b.max_len ≤ b.next_idx + l.length)) := by
  induction l generalizing b with
  | nil =>
    simp only [append_all, List.foldl_nil, List.length_nil, Nat.add_zero]
    have hd : decide (b.max_len ≤ b.next_idx) = false := by
      rw [decide_eq_false_iff_not]; omega
    rw [hd, Bool.or_false]
  | cons e l ih =>
    show ((b.append_memo e.1 e.2).append_all l).if_full = _
    rw [ih _ (append_memo_next_idx_lt b e.1 e.2 h), append_memo_if_full,
      append_memo_next_idx b e.1 e.2 h, append_memo_max_len]
    rcases Nat.lt_or_ge (b.next_idx + 1) b.max_len with hlt | hge
    · rw [Nat.mod_eq_of_lt hlt]
      simp only [List.length_cons]
      have hd : decide (b.max_len ≤ b.next_idx + 1) = false := by
        rw [decide_eq_false_iff_not]; omega
      have he : b.next_idx + 1 + l.length = b.next_idx + (l.length + 1) := by omega
      rw [hd, he, Bool.or_false]
    · have hd : decide (b.max_len ≤ b.next_idx + 1) = true := by
        rw [decide_eq_true_eq]; omega
      have he : decide (b.max_len ≤ b.next_idx + (l.length + 1)) = true := by
        rw [decide_eq_true_eq]; omega
      simp only [List.length_cons, hd, he, Bool.or_true, Bool.true_or]

/-- Ring content after a batch of appends: slot `j` holds the entry of the
last append that landed on `j`, and is untouched if no append landed on `j`. -/
theorem append_all_content (b : ReplayBufferGPU S O) (l : List (S × O))
    (h : b.next_idx < b.max_len) (dS : S) (dO : O) (j : ℕ) :
    ((b.append_all l).all_state j, (b.append_all l).all_other j) =
      match lastWrite b.next_idx b.max_len l.length j with
      | some k => l.getD k (dS, dO)
      | none => (b.all_state j, b.all_other j) := by
  induction l using List.reverseRecOn with
  | nil => simp [append_all, lastWrite]
  | append_singleton l e ih =>
    have hsplit : b.append_all (l ++ [e]) = (b.append_all l).append_memo e.1 e.2 := by
      simp [append_all, List.foldl_append]
    have hidx : (b.append_all l).next_idx = (b.next_idx + l.length) % b.max_len :=
      append_all_next_idx b l h
    rw [hsplit, append_memo_all_state, append_memo_all_other, List.length_append,
      List.length_singleton, lastWrite]
    by_cases hj : (b.next_idx + l.length) % b.max_len = j
    · rw [if_pos hj, Function.update_apply, Function.update_apply, hidx,
        if_pos hj.symm, if_pos hj.symm]
      show (e.1, e.2) = (l ++ [e]).getD l.length (dS, dO)
      rw [List.getD_append_right l [e] (dS, dO) l.length (Nat.le_refl _), Nat.sub_self]
      rfl
    · rw [if_neg hj, Function.update_apply, Function.update_apply, hidx,
        if_neg (fun hc => hj hc.symm), if_neg (fun hc => hj hc.symm), ih]
      rcases hlw : lastWrite b.next_idx b.max_len l.length j with _ | k
      · rfl
      · show l.getD k (dS, dO) = (l ++ [e]).getD k (dS, dO)
        rw [List.getD_append l [e] (dS, dO) k (lastWrite_lt hlw)]

end ReplayBufferGPU

/-! ## Buffer lifecycle: reachable states

A buffer is created once and then mutated only by `append_memo`,
`update__now_len__before_sample` and `empty_memories__before_explore`
(src/Main.py lifecycle). -/

inductive BufferOp (S O : Type)
  | append (state : S) (other : O)
  | refresh
  | reset

namespace ReplayBufferGPU

variable {S O : Type}

def run_op (b : ReplayBufferGPU S O) : BufferOp S O → ReplayBufferGPU S O
  | .append s o => b.append_memo s o
  | .refresh => b.update__now_len__before_sample
  | .reset => b.empty_memories__before_explore

def run_ops (b : ReplayBufferGPU S O) (ops : List (BufferOp S O)) : ReplayBufferGPU S O :=
  ops.foldl run_op b

theorem run_op_max_len (b : ReplayBufferGPU S O) (op : BufferOp S O) :
    (b.run_op op).max_len = b.max_len := by
  cases op with
  | append s o => exact append_memo_max_len b s o
  | refresh => rfl
  | reset => rfl

theorem run_op_next_idx_lt (b : ReplayBufferGPU S O) (op : BufferOp S O)
    (h : b.next_idx < b.max_len) : (b.run_op op).next_idx < (b.run_op op).max_len := by
  cases op with
  | append s o => exact append_memo_next_idx_lt b s o h
  | refresh => exact h
  | reset => show 0 < b.max_len; omega

theorem run_ops_next_idx_lt (b : ReplayBufferGPU S O) (ops : List (BufferOp S O))
    (h : b.next_idx < b.max_len) : (b.run_ops ops).next_idx < (b.run_ops ops).max_len := by
  induction ops generalizing b with
  | nil => exact h
  | cons op ops ih =>
    show ((b.run_op op).run_ops ops).next_idx < _
    exact ih _ (run_op_next_idx_lt b op h)

end ReplayBufferGPU

namespace ReplayBufferCPU

variable {S O : Type}

def run_op (b : ReplayBufferCPU S O) : BufferOp S O → ReplayBufferCPU S O
  | .append s o => b.append_memo s o
  | .refresh => b.update__now_len__before_sample
  | .reset => b.empty_memories__before_explore

def run_ops (b : ReplayBufferCPU S O) (ops : List (BufferOp S O)) : ReplayBufferCPU S O :=
  ops.foldl run_op b

theorem cpu_run_op_max_len (b : ReplayBufferCPU S O) (op : BufferOp S O) :
    (b.run_op op).max_len = b.max_len := by
  cases op with
  | append s o => simp only [run_op, append_memo]; split <;> rfl
  | refresh => rfl
  | reset => rfl

theorem cpu_run_op_next_idx_lt (b : ReplayBufferCPU S O) (op : BufferOp S O)
    (h : b.next_idx < b.max_len) : (b.run_op op).next_idx < (b.run_op op).max_len := by
  cases op with
  | append s o =>
    show (b.append_memo s o).next_idx < (b.append_memo s o).max_len
    simp only [append_memo]
    split
    · next hc => show 0 < b.max_len; omega
    · next hc => show b.next_idx + 1 < b.max_len; omega
  | refresh => exact h
  | reset => show 0 < b.max_len; omega

theorem cpu_run_ops_next_idx_lt (b : ReplayBufferCPU S O) (ops : List (BufferOp S O))
    (h : b.next_idx < b.max_len) : (b.run_ops ops).next_idx < (b.run_ops ops).max_len := by
  induction ops generalizing b with
  | nil => exact h
  | cons op ops ih =>
    show ((b.run_op op).run_ops ops).next_idx < _
    exact ih _ (cpu_run_op_next_idx_lt b op h)

end ReplayBufferCPU

/-! ## The buffer invariant claimed by the spec (claim C2)

`0 <= write_cursor < capacity`; `visible_length == capacity` iff the buffer
is full; otherwise `visible_length == write_cursor`.  `write_cursor` is
`next_idx`, `visible_length` is `now_len`, and the full-flag is the `if_full`
attribute consulted by `update__now_len__before_sample` (in ℕ the lower bound
`0 <= next_idx` is automatic). -/

def gpuClaimInvariant {S O : Type} (b : ReplayBufferGPU S O) : Prop :=
  b.next_idx < b.max_len ∧ (b.now_len = b.max_len ↔ b.if_full = true) ∧
    (b.if_full = false → b.now_len = b.next_idx)

def cpuClaimInvariant {S O : Type} (b : ReplayBufferCPU S O) : Prop :=
  b.next_idx < b.max_len ∧ (b.now_len = b.max_len ↔ b.if_full = true) ∧
    (b.if_full = false → b.now_len = b.next_idx)

instance {S O : Type} (b : ReplayBufferGPU S O) : Decidable (gpuClaimInvariant b) := by
  unfold gpuClaimInvariant; infer_instance

instance {S O : Type} (b : ReplayBufferCPU S O) : Decidable (cpuClaimInvariant b) := by
  unfold cpuClaimInvariant; infer_instance

theorem ReplayBufferGPU.run_ops_max_len {S O : Type} (b : ReplayBufferGPU S O)
    (ops : List (BufferOp S O)) : (b.run_ops ops).max_len = b.max_len := by
  induction ops generalizing b with
  | nil => rfl
  | cons op ops ih =>
    show ((b.run_op op).run_ops ops).max_len = _
    rw [ih, run_op_max_len]

theorem ReplayBufferCPU.cpu_run_ops_max_len {S O : Type} (b : ReplayBufferCPU S O)
    (ops : List (BufferOp S O)) : (b.run_ops ops).max_len = b.max_len := by
  induction ops generalizing b with
  | nil => rfl
  | cons op ops ih =>
    show ((b.run_op op).run_ops ops).max_len = _
    rw [ih, cpu_run_op_max_len]

/-- The ring property of the off-policy buffer: once at least `max_len`
entries were appended, `update__now_len__before_sample` reports a visible
length of `max_len`, and reading the storage cyclically from the write cursor
yields exactly the last `max_len` appended entries, oldest first. -/
theorem gpu_ring_after_overflow {S O : Type} (max_len : ℕ) (hcap : 0 < max_len)
    (s0 : ℕ → S) (o0 : ℕ → O) (dS : S) (dO : O) (l : List (S × O))
    (hlen : max_len ≤ l.length) :
    ((((ReplayBufferGPU.mk_buffer max_len s0 o0).append_all l).update__now_len__before_sample).now_len
        = max_len) ∧
    ∀ i, i < max_len →
      (((ReplayBufferGPU.mk_buffer max_len s0 o0).append_all l).all_state ((l.length + i) % max_len),
       ((ReplayBufferGPU.mk_buffer max_len s0 o0).append_all l).all_other ((l.length + i) % max_len))
        = l.getD (l.length - max_len + i) (dS, dO) := by
  set base := ReplayBufferGPU.mk_buffer max_len s0 o0 with hbase
  have hidx0 : base.next_idx = 0 := rfl
  have hml : base.max_len = max_len := rfl
  have hlt : base.next_idx < base.max_len := by rw [hidx0, hml]; exact hcap
  constructor
  · have hfull : (base.append_all l).if_full = true := by
      rw [ReplayBufferGPU.append_all_if_full base l hlt, hidx0, hml]
      have hd : decide (max_len ≤ 0 + l.length) = true := by
        rw [decide_eq_true_eq]; omega
      rw [hd, Bool.or_true]
    show (if (base.append_all l).if_full then (base.append_all l).max_len
          else (base.append_all l).next_idx) = max_len
    rw [hfull, if_pos rfl, ReplayBufferGPU.append_all_max_len, hml]
  · intro i hi
    have hcontent := ReplayBufferGPU.append_all_content base l hlt dS dO
      ((l.length + i) % max_len)
    rw [hidx0, hml] at hcontent
    have hlw : lastWrite 0 max_len l.length ((l.length + i) % max_len)
        = some (l.length - max_len + i) := lastWrite_full hcap l.length hlen i hi
    rw [hlw] at hcontent
    exact hcontent

/-- Failing input of claim C1: three appends into a capacity-2 buffer. -/
def c1_entries : List (ℕ × ℕ) := [(1, 10), (2, 20), (3, 30)]

/-- Off-policy buffer after the C1 failing input and a refresh. -/
def c1_gpu : ReplayBufferGPU ℕ ℕ :=
  ((ReplayBufferGPU.mk_buffer 2 (fun _ => 0) (fun _ => 0)).append_all
    c1_entries).update__now_len__before_sample

/-- On-policy buffer after the C1 failing input and a refresh. -/
def c1_cpu : ReplayBufferCPU ℕ ℕ :=
  ((ReplayBufferCPU.mk_buffer 2 (fun _ => 0) (fun _ => 0)).append_all
    c1_entries).update__now_len__before_sample

/-- C1: for append sequences exceeding capacity, `visible_length == capacity`
after `refresh_visible_length` and the effective content is the last
`capacity` entries in insertion order — evaluated on capacity 2 with the
three appends (1,10), (2,20), (3,30).  The off-policy (GPU) buffer satisfies
the claim; the on-policy (CPU) buffer does not: its `append_memo` sets
`is_full` while `update__now_len__before_sample` reads the inherited
`if_full`, so `now_len` comes out as `next_idx = 1` instead of the
capacity 2. -/
theorem c1_wraparound_visible_length :
    (c1_gpu.now_len = 2 ∧
     (c1_gpu.all_state ((3 + 0) % 2), c1_gpu.all_other ((3 + 0) % 2)) = (2, 20) ∧
     (c1_gpu.all_state ((3 + 1) % 2), c1_gpu.all_other ((3 + 1) % 2)) = (3, 30)) ∧
    (c1_cpu.is_full = true ∧ c1_cpu.if_full = false ∧
     c1_cpu.now_len = 1 ∧ c1_cpu.now_len ≠ 2) := by
  decide

theorem gpu_invariant_mk {S O : Type} (max_len : ℕ) (s0 : ℕ → S) (o0 : ℕ → O)
    (hcap : 0 < max_len) : gpuClaimInvariant (ReplayBufferGPU.mk_buffer max_len s0 o0) := by
  refine ⟨hcap, ?_, fun _ => rfl⟩
  show (0 = max_len ↔ false = true)
  constructor
  · intro h; omega
  · intro h; cases h

theorem cpu_invariant_mk {S O : Type} (max_len : ℕ) (s0 : ℕ → S) (o0 : ℕ → O)
    (hcap : 0 < max_len) : cpuClaimInvariant (ReplayBufferCPU.mk_buffer max_len s0 o0) := by
  refine ⟨hcap, ?_, fun _ => rfl⟩
  show (0 = max_len ↔ false = true)
  constructor
  · intro h; omega
  · intro h; cases h

theorem gpu_invariant_after_refresh {S O : Type} (b : ReplayBufferGPU S O)
    (h : b.next_idx < b.max_len) :
    gpuClaimInvariant b.update__now_len__before_sample := by
  unfold gpuClaimInvariant ReplayBufferGPU.update__now_len__before_sample
  cases hb : b.if_full <;> simp [hb] <;> omega

theorem cpu_invariant_after_refresh {S O : Type} (b : ReplayBufferCPU S O)
    (h : b.next_idx < b.max_len) :
    cpuClaimInvariant b.update__now_len__before_sample := by
  unfold cpuClaimInvariant ReplayBufferCPU.update__now_len__before_sample
  cases hb : b.if_full <;> simp [hb] <;> omega

theorem gpu_invariant_after_reset {S O : Type} (b : ReplayBufferGPU S O)
    (hcap : 0 < b.max_len) :
    gpuClaimInvariant b.empty_memories__before_explore := by
  refine ⟨hcap, ?_, fun _ => rfl⟩
  show (0 = b.max_len ↔ false = true)
  constructor
  · intro h; omega
  · intro h; cases h

theorem cpu_invariant_after_reset {S O : Type} (b : ReplayBufferCPU S O)
    (hcap : 0 < b.max_len) :
    cpuClaimInvariant b.empty_memories__before_explore := by
  refine ⟨hcap, ?_, fun _ => rfl⟩
  show (0 = b.max_len ↔ false = true)
  constructor
  · intro h; omega
  · intro h; cases h

/-- The property claim C2 asserts, amended to the states at phase
boundaries: the cursor bound holds at every reachable state; the full
invariant holds at construction and immediately after every
`update__now_len__before_sample` (refresh) or
`empty_memories__before_explore` (reset). -/
def c2Property (S O : Type) (max_len : ℕ) (s0 : ℕ → S) (o0 : ℕ → O)
    (ops : List (BufferOp S O)) : Prop :=
  (((ReplayBufferGPU.mk_buffer max_len s0 o0).run_ops ops).next_idx < max_len ∧
   ((ReplayBufferCPU.mk_buffer max_len s0 o0).run_ops ops).next_idx < max_len) ∧
  (gpuClaimInvariant (ReplayBufferGPU.mk_buffer max_len s0 o0) ∧
   cpuClaimInvariant (ReplayBufferCPU.mk_buffer max_len s0 o0)) ∧
  (gpuClaimInvariant
      (((ReplayBufferGPU.mk_buffer max_len s0 o0).run_ops ops).update__now_len__before_sample) ∧
   cpuClaimInvariant
      (((ReplayBufferCPU.mk_buffer max_len s0 o0).run_ops ops).update__now_len__before_sample)) ∧
  (gpuClaimInvariant
      (((ReplayBufferGPU.mk_buffer max_len s0 o0).run_ops ops).empty_memories__before_explore) ∧
   cpuClaimInvariant
      (((ReplayBufferCPU.mk_buffer max_len s0 o0).run_ops ops).empty_memories__before_explore))

/-- C2 (amended): along every operation sequence `0 <= write_cursor < capacity`
holds at every reachable state of either buffer, and the full claimed
invariant (`visible_length == capacity` iff full-flag, otherwise
`visible_length == write_cursor`) holds at construction and immediately
after every refresh or reset. -/
theorem c2_buffer_invariants (S O : Type) (max_len : ℕ) (hcap : 0 < max_len)
    (s0 : ℕ → S) (o0 : ℕ → O) (ops : List (BufferOp S O)) :
    c2Property S O max_len s0 o0 ops := by
  have hg0 : (ReplayBufferGPU.mk_buffer max_len s0 o0).next_idx
      < (ReplayBufferGPU.mk_buffer max_len s0 o0).max_len := hcap
  have hc0 : (ReplayBufferCPU.mk_buffer max_len s0 o0).next_idx
      < (ReplayBufferCPU.mk_buffer max_len s0 o0).max_len := hcap
  have hg := ReplayBufferGPU.run_ops_next_idx_lt _ ops hg0
  have hc := ReplayBufferCPU.cpu_run_ops_next_idx_lt _ ops hc0
  have hgm := ReplayBufferGPU.run_ops_max_len (ReplayBufferGPU.mk_buffer max_len s0 o0) ops
  have hcm := ReplayBufferCPU.cpu_run_ops_max_len (ReplayBufferCPU.mk_buffer max_len s0 o0) ops
  have hgcap : 0 < ((ReplayBufferGPU.mk_buffer max_len s0 o0).run_ops ops).max_len := by
    rw [hgm]; exact hcap
  have hccap : 0 < ((ReplayBufferCPU.mk_buffer max_len s0 o0).run_ops ops).max_len := by
    rw [hcm]; exact hcap
  have hg2 := hg
  have hc2 := hc
  rw [hgm] at hg2
  rw [hcm] at hc2
  exact ⟨⟨hg2, hc2⟩,
    ⟨gpu_invariant_mk max_len s0 o0 hcap, cpu_invariant_mk max_len s0 o0 hcap⟩,
    ⟨gpu_invariant_after_refresh _ hg, cpu_invariant_after_refresh _ hc⟩,
    ⟨gpu_invariant_after_reset _ hgcap, cpu_invariant_after_reset _ hccap⟩⟩

theorem c2_buffer_invariants_witness :
    0 < 2 ∧ c2Property ℕ ℕ 2 (fun _ => 0) (fun _ => 0)
      [BufferOp.append 1 1, BufferOp.refresh] :=
  ⟨by decide, c2_buffer_invariants ℕ ℕ 2 (by decide) (fun _ => 0) (fun _ => 0)
    [BufferOp.append 1 1, BufferOp.refresh]⟩

/-- C2 as literally claimed fails: the state of the off-policy buffer of
capacity 2 reached by construction followed by one `append` (no refresh yet)
has `visible_length = 0` but `write_cursor = 1` while not full, violating
"otherwise `visible_length == write_cursor`". -/
theorem c2_counterexample_mid_phase :
    ¬ ElegantRL.gpuClaimInvariant
        ((ElegantRL.ReplayBufferGPU.mk_buffer 2 (fun _ => (0:ℕ)) (fun _ => (0:ℕ))).run_ops
          [ElegantRL.BufferOp.append 1 1]) := by
  decide

/-! ## Off-policy sampling (src/Main.py lines 260-267, claim C3)

An off-policy row is `[reward, mask] ++ action` (`other_dim = 2 + action_dim`),
so `r_m_a[:, 0:1]` is the reward, `r_m_a[:, 1:2]` the mask and `r_m_a[:, 2:]`
the action. -/

/-- `torch.randint(high, size=(batch_size,))`, entry `k`: an arbitrary draw
reduced into `[0, high)`. -/
def randint (draw : ℕ → ℕ) (high k : ℕ) : ℕ := draw k % high

/-- `ReplayBufferGPU.random_sample`: per drawn index `i` the tuple
`(reward, mask, action, state[i], state[i+1])`; the index is drawn from
`[0, now_len - 1)` by `torch.randint(self.now_len - 1, ...)`. -/
def ReplayBufferGPU.random_sample {S : Type} (b : ReplayBufferGPU S (List ℚ))
    (draw : ℕ → ℕ) (batch_size : ℕ) : List (ℚ × ℚ × List ℚ × S × S) :=
  (List.range batch_size).map (fun k =>
    ((b.all_other (randint draw (b.now_len - 1) k)).getD 0 0,
     (b.all_other (randint draw (b.now_len - 1) k)).getD 1 0,
     (b.all_other (randint draw (b.now_len - 1) k)).drop 2,
     b.all_state (randint draw (b.now_len - 1) k),
     b.all_state (randint draw (b.now_len - 1) k + 1)))

/-- C3: with at least two visible transitions, every sampled tuple is
`(reward, mask, action, state[i], state[i+1])` for some index
`i <= visible_length - 2`; every such index is attainable by some draw
(sampling with replacement over the whole range); and for a buffer that is
not full (so `now_len = next_idx` after refresh) no returned pair crosses
the write cursor. -/
theorem c3_random_sample (S : Type) (b : ReplayBufferGPU S (List ℚ))
    (draw : ℕ → ℕ) (batch_size : ℕ) (h2 : 2 ≤ b.now_len)
    (href : b.now_len = (if b.if_full then b.max_len else b.next_idx)) :
    (b.random_sample draw batch_size).length = batch_size ∧
    (∀ t ∈ b.random_sample draw batch_size,
      ∃ i, i ≤ b.now_len - 2 ∧
        t = ((b.all_other i).getD 0 0, (b.all_other i).getD 1 0, (b.all_other i).drop 2,
             b.all_state i, b.all_state (i + 1)) ∧
        (b.if_full = false → i + 1 < b.next_idx)) ∧
    (∀ i, i ≤ b.now_len - 2 → 0 < batch_size →
      ∃ d : ℕ → ℕ,
        ((b.all_other i).getD 0 0, (b.all_other i).getD 1 0, (b.all_other i).drop 2,
         b.all_state i, b.all_state (i + 1)) ∈ b.random_sample d batch_size) := by
  have hpos : 0 < b.now_len - 1 := by omega
  refine ⟨by simp [ReplayBufferGPU.random_sample], ?_, ?_⟩
  · intro t ht
    rcases List.mem_map.mp ht with ⟨k, _, hk⟩
    refine ⟨randint draw (b.now_len - 1) k, ?_, hk.symm, ?_⟩
    · have : randint draw (b.now_len - 1) k < b.now_len - 1 := Nat.mod_lt _ hpos
      omega
    · intro hfull
      rw [hfull] at href
      simp only [Bool.false_eq_true, if_false] at href
      have : randint draw (b.now_len - 1) k < b.now_len - 1 := Nat.mod_lt _ hpos
      omega
  · intro i hi hbatch
    refine ⟨fun _ => i, List.mem_map.mpr ⟨0, List.mem_range.mpr hbatch, ?_⟩⟩
    have hmod : randint (fun _ => i) (b.now_len - 1) 0 = i := by
      show i % (b.now_len - 1) = i
      exact Nat.mod_eq_of_lt (by omega)
    rw [hmod]

theorem c3_random_sample_witness :
    (2 ≤ (((ElegantRL.ReplayBufferGPU.mk_buffer 2 (fun _ => (0:ℚ)) (fun _ => ([]:List ℚ))).append_all
        [(5, [1, 2]), (6, [3, 4])]).update__now_len__before_sample).now_len) ∧
    ((((ElegantRL.ReplayBufferGPU.mk_buffer 2 (fun _ => (0:ℚ)) (fun _ => ([]:List ℚ))).append_all
        [(5, [1, 2]), (6, [3, 4])]).update__now_len__before_sample).now_len =
      (if (((ElegantRL.ReplayBufferGPU.mk_buffer 2 (fun _ => (0:ℚ)) (fun _ => ([]:List ℚ))).append_all
        [(5, [1, 2]), (6, [3, 4])]).update__now_len__before_sample).if_full
       then (((ElegantRL.ReplayBufferGPU.mk_buffer 2 (fun _ => (0:ℚ)) (fun _ => ([]:List ℚ))).append_all
        [(5, [1, 2]), (6, [3, 4])]).update__now_len__before_sample).max_len
       else (((ElegantRL.ReplayBufferGPU.mk_buffer 2 (fun _ => (0:ℚ)) (fun _ => ([]:List ℚ))).append_all
        [(5, [1, 2]), (6, [3, 4])]).update__now_len__before_sample).next_idx)) ∧
    ((((ElegantRL.ReplayBufferGPU.mk_buffer 2 (fun _ => (0:ℚ)) (fun _ => ([]:List ℚ))).append_all
        [(5, [1, 2]), (6, [3, 4])]).update__now_len__before_sample).random_sample (fun _ => 7) 3).length = 3 :=
  ⟨by decide, by decide,
    (c3_random_sample ℚ _ (fun _ => 7) 3 (by decide) (by decide)).1⟩

/-! ## Return estimation (src/BetaWarning/AgentZoo.py)

`AgentPPO.update_policy` lines 284-288 (and identically `AgentGaePPO`
lines 346-350): `prev_old_v = 0`; for `i` from `n-1` down to `0`:
`all__old_v[i] = all_reward[i] + all_mask[i] * prev_old_v`;
`prev_old_v = all__old_v[i]`. -/

/-- The `all__old_v` backward recursion over parallel reward/mask lists. -/
def discounted_returns : List ℚ → List ℚ → List ℚ
  | r :: rs, m :: ms =>
    let rest := discounted_returns rs ms
    (r + m * rest.headD 0) :: rest
  | _, _ => []

theorem discounted_returns_length (r m : List ℚ) (h : r.length = m.length) :
    (discounted_returns r m).length = r.length := by
  induction r generalizing m with
  | nil =>
    cases m with
    | nil => rfl
    | cons b tm => simp at h
  | cons a t ih =>
    cases m with
    | nil => simp at h
    | cons b tm =>
      show (discounted_returns t tm).length + 1 = t.length + 1
      rw [ih tm (by simpa using h)]

theorem discounted_returns_ne_nil (r m : List ℚ) (h : r.length = m.length)
    (hpos : 0 < r.length) : discounted_returns r m ≠ [] := by
  intro hc
  have := discounted_returns_length r m h
  rw [hc] at this
  simp at this
  omega

theorem discounted_returns_last (r m : List ℚ) (h : r.length = m.length)
    (hpos : 0 < r.length) :
    (discounted_returns r m).getD (r.length - 1) 0 = r.getD (r.length - 1) 0 := by
  induction r generalizing m with
  | nil => simp at hpos
  | cons a t ih =>
    cases m with
    | nil => simp at h
    | cons b tm =>
      cases t with
      | nil =>
        cases tm with
        | nil => simp [discounted_returns]
        | cons c tc => simp at h
      | cons c tc =>
        have hml : (c :: tc).length = tm.length := by simpa using h
        have ihx := ih tm hml (by simp)
        have hlen : (a :: c :: tc).length - 1 = tc.length + 1 := by simp
        rw [hlen]
        show (discounted_returns (c :: tc) tm).getD tc.length 0 = (c :: tc).getD tc.length 0
        simpa using ihx

theorem discounted_returns_step (r m : List ℚ) (h : r.length = m.length) (i : ℕ)
    (hi : i + 1 < r.length) :
    (discounted_returns r m).getD i 0
      = r.getD i 0 + m.getD i 0 * (discounted_returns r m).getD (i + 1) 0 := by
  induction r generalizing m i with
  | nil => simp at hi
  | cons a t ih =>
    cases m with
    | nil => simp at h
    | cons b tm =>
      cases i with
      | zero =>
        show (discounted_returns (a :: t) (b :: tm)).getD 0 0
          = a + b * (discounted_returns (a :: t) (b :: tm)).getD 1 0
        have hne : discounted_returns t tm ≠ [] :=
          discounted_returns_ne_nil t tm (by simpa using h) (by simp at hi; omega)
        show (a + b * (discounted_returns t tm).headD 0) = a + b * (discounted_returns t tm).getD 0 0
        cases hd : discounted_returns t tm with
        | nil => exact absurd hd hne
        | cons x xs => rfl
      | succ k =>
        show (discounted_returns t tm).getD k 0
          = t.getD k 0 + tm.getD k 0 * (discounted_returns t tm).getD (k + 1) 0
        exact ih tm (by simpa using h) k (by simp at hi; omega)

/-- C4: the plain discounted-return recursion satisfies `R[n-1] = reward[n-1]`
and `R[i] = reward[i] + mask[i] * R[i+1]` for `i < n-1`, and on rewards
`[1,1,1]` with masks `[0.9, 0.9, 0]` yields `[2.71, 1.9, 1.0]`. -/
theorem c4_plain_discounted_return (rewards masks : List ℚ)
    (h : rewards.length = masks.length) :
    (discounted_returns rewards masks).length = rewards.length ∧
    (0 < rewards.length →
      (discounted_returns rewards masks).getD (rewards.length - 1) 0
        = rewards.getD (rewards.length - 1) 0) ∧
    (∀ i, i + 1 < rewards.length →
      (discounted_returns rewards masks).getD i 0
        = rewards.getD i 0
          + masks.getD i 0 * (discounted_returns rewards masks).getD (i + 1) 0) ∧
    discounted_returns [1, 1, 1] [9/10, 9/10, 0] = [271/100, 19/10, 1] := by
  refine ⟨discounted_returns_length rewards masks h,
    fun hpos => discounted_returns_last rewards masks h hpos,
    fun i hi => discounted_returns_step rewards masks h i hi, ?_⟩
  show discounted_returns [1, 1, 1] [9/10, 9/10, 0] = [271/100, 19/10, 1]
  norm_num [discounted_returns]

theorem c4_plain_discounted_return_witness :
    ([2, 3] : List ℚ).length = ([1/2, 0] : List ℚ).length ∧
    discounted_returns [1, 1, 1] [9/10, 9/10, 0] = [271/100, 19/10, 1] :=
  ⟨rfl, (c4_plain_discounted_return [2, 3] [1/2, 0] rfl).2.2.2⟩

/-! ## GAE (src/BetaWarning/AgentZoo.py, AgentGaePPO.update_policy 346-353)

`prev_gae_v = 0`; for `i` from `n-1` down to `0`:
`all__adv_v[i] = all_reward[i] + all_mask[i] * prev_gae_v - all__new_v[i]`;
`prev_gae_v = all__new_v[i] + all__adv_v[i] * lambda_adv`. -/

/-- The GAE backward recursion; also returns the running `prev_gae_v`. -/
def gae_adv_aux (lam : ℚ) : List ℚ → List ℚ → List ℚ → List ℚ × ℚ
  | r :: rs, m :: ms, v :: vs =>
    let rest := gae_adv_aux lam rs ms vs
    let a := r + m * rest.2 - v
    (a :: rest.1, v + a * lam)
  | _, _, _ => ([], 0)

/-- The `all__adv_v` list computed by `AgentGaePPO.update_policy`. -/
def gae_adv (lam : ℚ) (r m v : List ℚ) : List ℚ := (gae_adv_aux lam r m v).1

theorem gae_adv_one_eq (r : List ℚ) :
    ∀ m v : List ℚ, r.length = m.length → r.length = v.length →
      gae_adv_aux 1 r m v
        = (List.zipWith (fun a b => a - b) (discounted_returns r m) v,
           (discounted_returns r m).headD 0) := by
  induction r with
  | nil =>
    intro m v h1 h2
    cases m with
    | nil =>
      cases v with
      | nil => rfl
      | cons c vs => simp at h2
    | cons b ms => simp at h1
  | cons a rs ih =>
    intro m v h1 h2
    cases m with
    | nil => simp at h1
    | cons b ms =>
      cases v with
      | nil => simp at h2
      | cons c vs =>
        have hrec := ih ms vs (by simpa using h1) (by simpa using h2)
        show ((a + b * (gae_adv_aux 1 rs ms vs).2 - c) :: (gae_adv_aux 1 rs ms vs).1,
              c + (a + b * (gae_adv_aux 1 rs ms vs).2 - c) * 1) = _
        rw [hrec]
        show ((a + b * (discounted_returns rs ms).headD 0 - c)
                :: List.zipWith (fun a b => a - b) (discounted_returns rs ms) vs,
              c + (a + b * (discounted_returns rs ms).headD 0 - c) * 1)
          = (List.zipWith (fun a b => a - b)
               ((a + b * (discounted_returns rs ms).headD 0) :: discounted_returns rs ms)
               (c :: vs),
             ((a + b * (discounted_returns rs ms).headD 0) :: discounted_returns rs ms).headD 0)
        rw [List.zipWith_cons_cons, List.headD_cons, Prod.mk.injEq]
        exact ⟨rfl, by ring⟩

theorem gae_adv_aux_zero_snd (r : List ℚ) :
    ∀ m v : List ℚ, r.length = m.length → r.length = v.length →
      (gae_adv_aux 0 r m v).2 = v.headD 0 := by
  cases r with
  | nil =>
    intro m v h1 h2
    cases m with
    | nil =>
      cases v with
      | nil => rfl
      | cons c vs => simp at h2
    | cons b ms => simp at h1
  | cons a rs =>
    intro m v h1 h2
    cases m with
    | nil => simp at h1
    | cons b ms =>
      cases v with
      | nil => simp at h2
      | cons c vs =>
        show c + (a + b * (gae_adv_aux 0 rs ms vs).2 - c) * 0 = c
        ring

theorem gae_adv_zero_step (r : List ℚ) :
    ∀ m v : List ℚ, r.length = m.length → r.length = v.length →
      ∀ i, i < r.length →
        (gae_adv 0 r m v).getD i 0
          = r.getD i 0 + m.getD i 0 * v.getD (i + 1) 0 - v.getD i 0 := by
  induction r with
  | nil =>
    intro m v h1 h2 i hi
    simp at hi
  | cons a rs ih =>
    intro m v h1 h2 i hi
    cases m with
    | nil => simp at h1
    | cons b ms =>
      cases v with
      | nil => simp at h2
      | cons c vs =>
        cases i with
        | zero =>
          show a + b * (gae_adv_aux 0 rs ms vs).2 - c
            = a + b * (c :: vs).getD 1 0 - c
          rw [gae_adv_aux_zero_snd rs ms vs (by simpa using h1) (by simpa using h2)]
          cases vs <;> rfl
        | succ k =>
          show (gae_adv 0 rs ms vs).getD k 0
            = rs.getD k 0 + ms.getD k 0 * vs.getD (k + 1) 0 - vs.getD k 0
          exact ih ms vs (by simpa using h1) (by simpa using h2) k (by simp at hi; omega)

/-- C5 (amended): with `lambda = 1` the GAE recursion computes exactly the
plain full-trajectory advantage `R[i] - V[i]` (plain return minus value);
with `lambda = 0` it computes the one-step TD residual
`reward[i] + mask[i] * V[i+1] - V[i]` (with `V[n] = 0` at the boundary),
not the plain-return-minus-value formula. -/
theorem c5_gae_reductions (r m v : List ℚ) (h1 : r.length = m.length)
    (h2 : r.length = v.length) :
    gae_adv 1 r m v = List.zipWith (fun a b => a - b) (discounted_returns r m) v ∧
    (∀ i, i < r.length →
      (gae_adv 0 r m v).getD i 0
        = r.getD i 0 + m.getD i 0 * v.getD (i + 1) 0 - v.getD i 0) := by
  constructor
  · show (gae_adv_aux 1 r m v).1 = _
    rw [gae_adv_one_eq r m v h1 h2]
  · exact gae_adv_zero_step r m v h1 h2

theorem c5_gae_reductions_witness :
    ([1, 1] : List ℚ).length = ([9/10, 0] : List ℚ).length ∧
    ([1, 1] : List ℚ).length = ([5, 7] : List ℚ).length ∧
    gae_adv 1 [1, 1] [9/10, 0] [5, 7]
      = List.zipWith (fun a b => a - b) (discounted_returns [1, 1] [9/10, 0]) [5, 7] :=
  ⟨rfl, rfl, (c5_gae_reductions [1, 1] [9/10, 0] [5, 7] rfl rfl).1⟩

/-- C5 as stated fails at `lambda = 0`: on rewards `[1,1]`, masks
`[0.9, 0]`, values `[0, 0]` the GAE advantage is `[1, 1]` while the
plain-return-minus-value formula gives `[1.9, 1]`. -/
theorem c5_counterexample_lambda_zero :
    gae_adv 0 [1, 1] [9/10, 0] [0, 0] = [1, 1] ∧
    List.zipWith (fun a b => a - b) (discounted_returns [1, 1] [9/10, 0]) [0, 0]
      = [19/10, 1] ∧
    gae_adv 0 [1, 1] [9/10, 0] [0, 0]
      ≠ List.zipWith (fun a b => a - b) (discounted_returns [1, 1] [9/10, 0]) [0, 0] := by
  refine ⟨?_, ?_, ?_⟩ <;> norm_num [gae_adv, gae_adv_aux, discounted_returns]

/-! ## TargetSynchronizer (src/BetaWarning/AgentZoo.py lines 488-490)

`soft_target_update(target, current, tau)`: for every zipped parameter pair,
`target_param <- tau * param + (1.0 - tau) * target_param`.  Parameter
tensors are embedded as flat lists of their elements. -/

def soft_target_update (tau : ℚ) (target current : List ℚ) : List ℚ :=
  List.zipWith (fun target_param param => tau * param + (1 - tau) * target_param)
    target current

theorem soft_target_update_zero (target current : List ℚ)
    (h : target.length = current.length) :
    soft_target_update 0 target current = target := by
  induction target generalizing current with
  | nil => rfl
  | cons t ts ih =>
    cases current with
    | nil => simp at h
    | cons p ps =>
      show (0 * p + (1 - 0) * t) :: soft_target_update 0 ts ps = t :: ts
      rw [ih ps (by simpa using h)]
      norm_num

theorem soft_target_update_one (target current : List ℚ)
    (h : target.length = current.length) :
    soft_target_update 1 target current = current := by
  induction target generalizing current with
  | nil =>
    cases current with
    | nil => rfl
    | cons p ps => simp at h
  | cons t ts ih =>
    cases current with
    | nil => simp at h
    | cons p ps =>
      show (1 * p + (1 - 1) * t) :: soft_target_update 1 ts ps = p :: ps
      rw [ih ps (by simpa using h)]
      norm_num

theorem soft_target_update_getD (tau : ℚ) (target current : List ℚ)
    (h : target.length = current.length) :
    ∀ i, i < target.length →
      (soft_target_update tau target current).getD i 0
        = tau * current.getD i 0 + (1 - tau) * target.getD i 0 := by
  induction target generalizing current with
  | nil => intro i hi; simp at hi
  | cons t ts ih =>
    cases current with
    | nil => simp at h
    | cons p ps =>
      intro i hi
      cases i with
      | zero => rfl
      | succ k =>
        show (soft_target_update tau ts ps).getD k 0
          = tau * ps.getD k 0 + (1 - tau) * ts.getD k 0
        exact ih ps (by simpa using h) k (by simp at hi; omega)

theorem convex_comb_bounds (tau t p : ℚ) (h0 : 0 ≤ tau) (h1 : tau ≤ 1) :
    min t p ≤ tau * p + (1 - tau) * t ∧ tau * p + (1 - tau) * t ≤ max t p := by
  rcases le_total t p with h | h
  · rw [min_eq_left h, max_eq_right h]
    constructor <;> nlinarith
  · rw [min_eq_right h, max_eq_left h]
    constructor <;> nlinarith

/-- C6: `soft_target_update` writes `tau * online + (1 - tau) * target`
elementwise, leaves the target unchanged at `tau = 0`, replaces it with the
online parameters at `tau = 1`, and at every intermediate `tau` each element
is the convex combination, lying between the two endpoints. -/
theorem c6_soft_target_update (tau : ℚ) (target current : List ℚ)
    (h : target.length = current.length) :
    soft_target_update 0 target current = target ∧
    soft_target_update 1 target current = current ∧
    (∀ i, i < target.length →
      (soft_target_update tau target current).getD i 0
        = tau * current.getD i 0 + (1 - tau) * target.getD i 0) ∧
    (0 ≤ tau → tau ≤ 1 → ∀ i, i < target.length →
      min (target.getD i 0) (current.getD i 0)
          ≤ (soft_target_update tau target current).getD i 0 ∧
      (soft_target_update tau target current).getD i 0
          ≤ max (target.getD i 0) (current.getD i 0)) := by
  refine ⟨soft_target_update_zero target current h,
    soft_target_update_one target current h,
    soft_target_update_getD tau target current h,
    fun h0 h1 i hi => ?_⟩
  rw [soft_target_update_getD tau target current h i hi]
  exact convex_comb_bounds tau (target.getD i 0) (current.getD i 0) h0 h1

theorem c6_soft_target_update_witness :
    ([4, 10] : List ℚ).length = ([8, 2] : List ℚ).length ∧
    soft_target_update 0 [4, 10] [8, 2] = [4, 10] ∧
    soft_target_update 1 [4, 10] [8, 2] = [8, 2] :=
  ⟨rfl, (c6_soft_target_update (1/2) [4, 10] [8, 2] rfl).1,
    (c6_soft_target_update (1/2) [4, 10] [8, 2] rfl).2.1⟩

/-! ## PPO clipped surrogate (src/BetaWarning/AgentZoo.py lines 306-309, 369-372)

`ratio = (new_log_prob - old_log_prob).exp()`;
`obj_surrogate1 = advantage * ratio`;
`obj_surrogate2 = advantage * ratio.clamp(1 - clip, 1 + clip)`;
the objective term is `torch.min(obj_surrogate1, obj_surrogate2)`. -/

/-- `torch.clamp(x, lo, hi) = min(max(x, lo), hi)`. -/
def clamp (x lo hi : ℚ) : ℚ := min (max x lo) hi

def obj_surrogate1 (advantage ratio : ℚ) : ℚ := advantage * ratio

def obj_surrogate2 (clip advantage ratio : ℚ) : ℚ :=
  advantage * clamp ratio (1 - clip) (1 + clip)

/-- The term selected by `torch.min(obj_surrogate1, obj_surrogate2)`. -/
def obj_surrogate_min (clip advantage ratio : ℚ) : ℚ :=
  min (obj_surrogate1 advantage ratio) (obj_surrogate2 clip advantage ratio)

/-- C9 (amended): outside `[1-clip, 1+clip]` the clamped surrogate equals the
advantage times the boundary value, and the selected objective term is `<=`
the unclamped surrogate for every advantage — positive or negative — because
`torch.min` is a pointwise lower bound (the `>=`-for-negative-advantage half
of the original claim is false). -/
theorem c9_ppo_clip (clip advantage ratio : ℚ) (hclip : 0 ≤ clip) :
    (ratio ≤ 1 - clip → obj_surrogate2 clip advantage ratio = advantage * (1 - clip)) ∧
    (1 + clip ≤ ratio → obj_surrogate2 clip advantage ratio = advantage * (1 + clip)) ∧
    obj_surrogate_min clip advantage ratio ≤ obj_surrogate1 advantage ratio := by
  refine ⟨fun hlo => ?_, fun hhi => ?_, min_le_left _ _⟩
  · unfold obj_surrogate2 clamp
    rw [max_eq_right hlo, min_eq_left (by linarith)]
  · unfold obj_surrogate2 clamp
    rw [max_eq_left (by linarith), min_eq_right hhi]

theorem c9_ppo_clip_witness :
    (0:ℚ) ≤ 1/4 ∧
    ((1/2 : ℚ) ≤ 1 - 1/4 → obj_surrogate2 (1/4) (-1) (1/2) = -1 * (1 - 1/4)) ∧
    obj_surrogate_min (1/4) (-1) (1/2) ≤ obj_surrogate1 (-1) (1/2) :=
  ⟨by norm_num, (c9_ppo_clip (1/4) (-1) (1/2) (by norm_num)).1,
    (c9_ppo_clip (1/4) (-1) (1/2) (by norm_num)).2.2⟩

/-- C9 as stated fails for negative advantage: with `clip = 0.25`,
`advantage = -1`, `ratio = 0.5` the selected term is `-0.75`, strictly below
the unclamped surrogate `-0.5`, so it is not `>=` the unclamped surrogate. -/
theorem c9_counterexample_negative_advantage :
    obj_surrogate_min (1/4) (-1) (1/2) = -3/4 ∧
    obj_surrogate1 (-1) (1/2) = -1/2 ∧
    ¬ (obj_surrogate1 (-1) (1/2) ≤ obj_surrogate_min (1/4) (-1) (1/2)) := by
  refine ⟨?_, ?_, ?_⟩ <;>
    norm_num [obj_surrogate_min, obj_surrogate1, obj_surrogate2, clamp]

/-! ## Gradient-step structure of `update_policy` (claim C7)

Loop skeletons of the `update_policy` methods, as abstract event traces:
* `AgentDQN` (lines 47-58, and identically `AgentDoubleDQN`, `AgentDDPG`,
  `AgentSAC`): `for _ in range(int(max_step * repeat_times))`, each
  iteration sampling one batch, taking one optimizer step and one soft
  target update;
* `AgentTD3` (lines 207-225): same count, but target updates only when
  `i % update_freq == 0` (then both critic and actor targets);
* `AgentPPO` (line 297, same for `AgentGaePPO` line 359):
  `for _ in range(int(repeat_times * max_memo / batch_size))` with
  `max_memo = buffer.now_len`, no target network at all;
* `AgentModSAC` (lines 447-453): `k = 1 + buffer.now_len / buffer.max_len`,
  `train_steps = int(max_step * k * repeat_times)`, and
  `for update_c in range(1, train_steps)`. -/

inductive TrainEvent
  | sample_batch
  | grad_step
  | sync_target
deriving DecidableEq

def dqn_update_policy_events (max_step repeat_times : ℕ) : List TrainEvent :=
  (List.range (max_step * repeat_times)).flatMap
    (fun _ => [TrainEvent.sample_batch, TrainEvent.grad_step, TrainEvent.sync_target])

def td3_update_policy_events (max_step repeat_times update_freq : ℕ) : List TrainEvent :=
  (List.range (max_step * repeat_times)).flatMap (fun i =>
    [TrainEvent.sample_batch, TrainEvent.grad_step]
      ++ (if i % update_freq = 0 then [TrainEvent.sync_target, TrainEvent.sync_target]
          else []))

/-- `int(repeat_times * max_memo / batch_size)`: `int` truncation of the
nonnegative division is the floor, i.e. ℕ-division. -/
def ppo_update_steps (repeat_times now_len batch_size : ℕ) : ℕ :=
  repeat_times * now_len / batch_size

def ppo_update_policy_events (repeat_times now_len batch_size : ℕ) : List TrainEvent :=
  (List.range (ppo_update_steps repeat_times now_len batch_size)).flatMap
    (fun _ => [TrainEvent.sample_batch, TrainEvent.grad_step])

def modsac_train_steps (max_step repeat_times now_len max_len : ℕ) : ℕ :=
  (⌊(max_step : ℚ) * (1 + (now_len : ℚ) / (max_len : ℚ)) * (repeat_times : ℚ)⌋).toNat

/-- The `update_c` values iterated by `for update_c in range(1, train_steps)`. -/
def modsac_update_c_values (max_step repeat_times now_len max_len : ℕ) : List ℕ :=
  (List.range (modsac_train_steps max_step repeat_times now_len max_len - 1)).map
    (fun i => i + 1)

theorem count_flatMap_events {α : Type} (l : List α) (f : α → List TrainEvent)
    (e : TrainEvent) :
    ((l.flatMap f).count e) = (l.map (fun i => (f i).count e)).sum := by
  induction l with
  | nil => rfl
  | cons x t ih => rw [List.flatMap_cons, List.count_append, List.map_cons, List.sum_cons, ih]

theorem sum_map_constant {α : Type} (l : List α) (c : ℕ) :
    (l.map (fun _ => c)).sum = l.length * c := by
  induction l with
  | nil => simp
  | cons x t ih =>
    rw [List.map_cons, List.sum_cons, ih, List.length_cons]
    ring

theorem sum_map_ite_mod {α : Type} (p : α → Prop) [DecidablePred p] (c : ℕ) (l : List α) :
    (l.map (fun i => if p i then c else 0)).sum = c * l.countP (fun i => decide (p i)) := by
  induction l with
  | nil => simp
  | cons x t ih =>
    rw [List.map_cons, List.sum_cons, ih, List.countP_cons]
    by_cases h : p x
    · have hd : decide (p x) = true := by simp [h]
      rw [if_pos h, hd, if_pos rfl]
      ring
    · have hd : decide (p x) = false := by simp [h]
      rw [if_neg h, hd, if_neg (by simp)]
      ring

/-- C7 (amended): `AgentDQN.update_policy` performs exactly
`max_step * repeat_times` gradient steps, each with one batch sample and one
target synchronization; `AgentTD3` takes the same count of gradient steps
but synchronizes its two targets only on every `update_freq`-th step;
`AgentPPO.update_policy` performs `int(repeat_times * now_len / batch_size)`
gradient steps — a buffer-size-scaled count independent of the step budget —
with one batch sample each and no target synchronization; and
`AgentModSAC` iterates `update_c` over `range(1, train_steps)`, i.e.
`train_steps - 1` gradient iterations with
`train_steps = int(max_step * (1 + now_len/max_len) * repeat_times)`. -/
theorem c7_update_policy_step_counts (max_step repeat_times update_freq : ℕ)
    (now_len batch_size max_len : ℕ) :
    ((dqn_update_policy_events max_step repeat_times).count TrainEvent.grad_step
        = max_step * repeat_times ∧
     (dqn_update_policy_events max_step repeat_times).count TrainEvent.sample_batch
        = max_step * repeat_times ∧
     (dqn_update_policy_events max_step repeat_times).count TrainEvent.sync_target
        = max_step * repeat_times) ∧
    ((td3_update_policy_events max_step repeat_times update_freq).count TrainEvent.grad_step
        = max_step * repeat_times ∧
     (td3_update_policy_events max_step repeat_times update_freq).count TrainEvent.sync_target
        = 2 * ((List.range (max_step * repeat_times)).countP
            (fun i => decide (i % update_freq = 0)))) ∧
    ((ppo_update_policy_events repeat_times now_len batch_size).count TrainEvent.grad_step
        = ppo_update_steps repeat_times now_len batch_size ∧
     (ppo_update_policy_events repeat_times now_len batch_size).count TrainEvent.sync_target
        = 0) ∧
    ((modsac_update_c_values max_step repeat_times now_len max_len).length
        = modsac_train_steps max_step repeat_times now_len max_len - 1 ∧
     ∀ c ∈ modsac_update_c_values max_step repeat_times now_len max_len,
        1 ≤ c ∧ c < modsac_train_steps max_step repeat_times now_len max_len) := by
  have hc1 : List.count TrainEvent.grad_step
      [TrainEvent.sample_batch, TrainEvent.grad_step, TrainEvent.sync_target] = 1 := by decide
  have hc2 : List.count TrainEvent.sample_batch
      [TrainEvent.sample_batch, TrainEvent.grad_step, TrainEvent.sync_target] = 1 := by decide
  have hc3 : List.count TrainEvent.sync_target
      [TrainEvent.sample_batch, TrainEvent.grad_step, TrainEvent.sync_target] = 1 := by decide
  have hc4 : List.count TrainEvent.grad_step
      [TrainEvent.sample_batch, TrainEvent.grad_step] = 1 := by decide
  have hc5 : List.count TrainEvent.sync_target
      [TrainEvent.sample_batch, TrainEvent.grad_step] = 0 := by decide
  refine ⟨⟨?_, ?_, ?_⟩, ⟨?_, ?_⟩, ⟨?_, ?_⟩, ⟨?_, ?_⟩⟩
  · rw [dqn_update_policy_events, count_flatMap_events, sum_map_constant,
      List.length_range, hc1, Nat.mul_one]
  · rw [dqn_update_policy_events, count_flatMap_events, sum_map_constant,
      List.length_range, hc2, Nat.mul_one]
  · rw [dqn_update_policy_events, count_flatMap_events, sum_map_constant,
      List.length_range, hc3, Nat.mul_one]
  · rw [td3_update_policy_events, count_flatMap_events]
    have hblock : ∀ i : ℕ,
        (([TrainEvent.sample_batch, TrainEvent.grad_step]
            ++ (if i % update_freq = 0
                then [TrainEvent.sync_target, TrainEvent.sync_target]
                else [])).count TrainEvent.grad_step) = 1 := by
      intro i
      by_cases h : i % update_freq = 0 <;> simp [h, List.count_append]
    calc ((List.range (max_step * repeat_times)).map (fun i =>
            (([TrainEvent.sample_batch, TrainEvent.grad_step]
              ++ (if i % update_freq = 0
                  then [TrainEvent.sync_target, TrainEvent.sync_target]
                  else [])).count TrainEvent.grad_step))).sum
        = ((List.range (max_step * repeat_times)).map (fun _ => 1)).sum := by
          apply congrArg
          exact List.map_congr_left (fun i _ => hblock i)
      _ = max_step * repeat_times := by
          rw [sum_map_constant, List.length_range, Nat.mul_one]
  · rw [td3_update_policy_events, count_flatMap_events]
    have hblock : ∀ i : ℕ,
        (([TrainEvent.sample_batch, TrainEvent.grad_step]
            ++ (if i % update_freq = 0
                then [TrainEvent.sync_target, TrainEvent.sync_target]
                else [])).count TrainEvent.sync_target)
          = if i % update_freq = 0 then 2 else 0 := by
      intro i
      by_cases h : i % update_freq = 0 <;> simp [h, List.count_append]
    calc ((List.range (max_step * repeat_times)).map (fun i =>
            (([TrainEvent.sample_batch, TrainEvent.grad_step]
              ++ (if i % update_freq = 0
                  then [TrainEvent.sync_target, TrainEvent.sync_target]
                  else [])).count TrainEvent.sync_target))).sum
        = ((List.range (max_step * repeat_times)).map (fun i =>
            if i % update_freq = 0 then 2 else 0)).sum := by
          apply congrArg
          exact List.map_congr_left (fun i _ => hblock i)
      _ = _ := sum_map_ite_mod (fun i => i % update_freq = 0) 2 _
  · rw [ppo_update_policy_events, count_flatMap_events, sum_map_constant,
      List.length_range, hc4, Nat.mul_one]
  · rw [ppo_update_policy_events, count_flatMap_events, sum_map_constant,
      List.length_range, hc5, Nat.mul_zero]
  · rw [modsac_update_c_values, List.length_map, List.length_range]
  · intro c hc
    rcases List.mem_map.mp hc with ⟨i, hi, rfl⟩
    have := List.mem_range.mp hi
    omega

/-- C7 as stated fails for `AgentPPO` (a non-adaptive variant): with
`max_step = 1`, `repeat_times = 8`, `now_len = 4`, `batch_size = 2` the claim
demands `1 * 8 = 8` gradient steps, but the code performs
`int(8 * 4 / 2) = 16`. -/
theorem c7_counterexample_ppo_step_count :
    (ppo_update_policy_events 8 4 2).count TrainEvent.grad_step = 16 ∧
    (1 * 8 : ℕ) = 8 ∧
    (ppo_update_policy_events 8 4 2).count TrainEvent.grad_step ≠ 1 * 8 := by
  refine ⟨by decide, by decide, by decide⟩

/-! ## TrainingLoop termination (src/Main.py lines 152-162, claim C8)

```
if_solve = False
while not ((if_break_early and if_solve) or total_step > break_step
           or os.path.exists(f'{cwd}/stop')):
    steps = agent.update_buffer(...); total_step += steps
    buffer.update__now_len__before_sample(); agent.update_policy(...)
    evaluator.evaluate_and_save(...)
```
`evaluate_and_save` (lines 287-317) updates `r_max` on strict improvement
and returns `if_save`; its internal `if_solve = bool(self.r_max >
self.target_reward)` (line 300) is never returned, and the loop never
reassigns its local `if_solve`. -/

structure Evaluator where
  r_max : ℚ
  target_reward : ℚ

/-- `Evaluator.evaluate_and_save`: records a new best average return and
returns `if_save` (a new best was recorded) — not the solved flag. -/
def Evaluator.evaluate_and_save (ev : Evaluator) (r_avg : ℚ) : Evaluator × Bool :=
  if ev.r_max < r_avg then ({ ev with r_max := r_avg }, true) else (ev, false)

/-- Line 300: `if_solve = bool(self.r_max > self.target_reward)`. -/
def Evaluator.if_solve (ev : Evaluator) : Bool := decide (ev.target_reward < ev.r_max)

/-- The `while` condition of `train_and_evaluate` (line 153): continue while
none of the three stop conditions holds. -/
def train_loop_continue (if_break_early if_solve : Bool) (total_step break_step : ℕ)
    (stop_file : Bool) : Bool :=
  !((if_break_early && if_solve) || decide (break_step < total_step) || stop_file)

structure TrainLoopState where
  total_step : ℕ
  if_solve : Bool
  evaluator : Evaluator

/-- One iteration of the training `while` body (lines 154-162): the collected
steps are added to `total_step`, `evaluate_and_save` is invoked with the
evaluation average and its returned `if_save` discarded, and the local
`if_solve` is not reassigned. -/
def train_iteration (s : TrainLoopState) (steps : ℕ) (r_avg : ℚ) : TrainLoopState :=
  { s with total_step := s.total_step + steps,
           evaluator := (s.evaluator.evaluate_and_save r_avg).1 }

def train_iterations (s : TrainLoopState) (l : List (ℕ × ℚ)) : TrainLoopState :=
  l.foldl (fun acc e => train_iteration acc e.1 e.2) s

theorem train_iterations_if_solve (s : TrainLoopState) (l : List (ℕ × ℚ)) :
    (train_iterations s l).if_solve = s.if_solve := by
  induction l generalizing s with
  | nil => rfl
  | cons e t ih =>
    show (train_iterations (train_iteration s e.1 e.2) t).if_solve = _
    rw [ih]
    rfl

/-- C8: the claim is right and the code is wrong.  After one iteration from
the initial state (`if_solve = False`, `r_max = -1000`, `target_reward = 5`)
collecting 100 steps with evaluation average 10, the Evaluator has solved the
task (`r_max = 10 > 5`), early-stop is enabled, `total_step = 100` is within
the budget `10^6` and no stop file exists — yet the loop-head condition still
says continue, because the local `if_solve` is never reassigned from the
Evaluator (whose `evaluate_and_save` returns `if_save`, not `if_solve`).
Also shown: on an already-solved evaluator a non-improving evaluation returns
`if_save = false` while `if_solve` is `true`, so the returned value is not
the solved flag. -/
theorem c8_early_stop_never_fires :
    (train_iterations ⟨0, false, ⟨-1000, 5⟩⟩ [(100, 10)]).evaluator.if_solve = true ∧
    (train_iterations ⟨0, false, ⟨-1000, 5⟩⟩ [(100, 10)]).total_step = 100 ∧
    (train_iterations ⟨0, false, ⟨-1000, 5⟩⟩ [(100, 10)]).if_solve = false ∧
    train_loop_continue true
      (train_iterations ⟨0, false, ⟨-1000, 5⟩⟩ [(100, 10)]).if_solve
      (train_iterations ⟨0, false, ⟨-1000, 5⟩⟩ [(100, 10)]).total_step
      1000000 false = true ∧
    ((Evaluator.evaluate_and_save ⟨10, 5⟩ 7).2 = false ∧
      Evaluator.if_solve ⟨10, 5⟩ = true) := by
  refine ⟨?_, ?_, ?_, ?_, ?_, ?_⟩ <;> decide

namespace ReplayBufferCPU

variable {S O : Type}

theorem cpu_append_memo_max_len (b : ReplayBufferCPU S O) (s : S) (o : O) :
    (b.append_memo s o).max_len = b.max_len := by
  simp only [append_memo]; split <;> rfl

theorem cpu_append_memo_all_state (b : ReplayBufferCPU S O) (s : S) (o : O) :
    (b.append_memo s o).all_state = Function.update b.all_state b.next_idx s := by
  simp only [append_memo]; split <;> rfl

theorem cpu_append_memo_all_other (b : ReplayBufferCPU S O) (s : S) (o : O) :
    (b.append_memo s o).all_other = Function.update b.all_other b.next_idx o := by
  simp only [append_memo]; split <;> rfl

theorem append_memo_next_idx_no_wrap (b : ReplayBufferCPU S O) (s : S) (o : O)
    (h : b.next_idx + 1 < b.max_len) :
    (b.append_memo s o).next_idx = b.next_idx + 1 := by
  simp only [append_memo]
  rw [if_neg (by omega)]

/-- Content written by a batch of appends that never wraps: slot
`next_idx + i` holds the `i`-th appended entry. -/
theorem append_all_no_wrap (b : ReplayBufferCPU S O) (l : List (S × O))
    (h : b.next_idx + l.length ≤ b.max_len) (dS : S) (dO : O) :
    ∀ i, i < l.length →
      ((b.append_all l).all_state (b.next_idx + i),
       (b.append_all l).all_other (b.next_idx + i)) = l.getD i (dS, dO) := by
  induction l generalizing b with
  | nil => intro i hi; simp at hi
  | cons e t ih =>
    intro i hi
    show (((b.append_memo e.1 e.2).append_all t).all_state (b.next_idx + i),
          ((b.append_memo e.1 e.2).append_all t).all_other (b.next_idx + i)) = _
    rcases Nat.eq_or_lt_of_le (show b.next_idx + 1 ≤ b.max_len by
      simp only [List.length_cons] at h; omega) with heq | hlt
    · -- the single append reaches the end of storage: the tail must be empty
      have ht : t = [] := by
        have := h
        simp only [List.length_cons] at this
        cases t with
        | nil => rfl
        | cons x xs => simp at this; omega
      subst ht
      have hi0 : i = 0 := by simp at hi; omega
      subst hi0
      show ((b.append_memo e.1 e.2).all_state (b.next_idx + 0),
            (b.append_memo e.1 e.2).all_other (b.next_idx + 0)) = e
      rw [cpu_append_memo_all_state, cpu_append_memo_all_other, Nat.add_zero,
        Function.update_same, Function.update_same]
    · have hidx := append_memo_next_idx_no_wrap b e.1 e.2 hlt
      have hml := cpu_append_memo_max_len b e.1 e.2
      cases i with
      | zero =>
        -- the entry written now is not overwritten by the (no-wrap) tail
        have huntouched : ∀ t2 : List (S × O), ∀ b2 : ReplayBufferCPU S O,
            ∀ j, j < b2.next_idx → b2.next_idx + t2.length ≤ b2.max_len →
            ((b2.append_all t2).all_state j, (b2.append_all t2).all_other j)
              = (b2.all_state j, b2.all_other j) := by
          intro t2
          induction t2 with
          | nil => intro b2 j hj hb; rfl
          | cons x xs ih2 =>
            intro b2 j hj hb
            show (((b2.append_memo x.1 x.2).append_all xs).all_state j,
                  ((b2.append_memo x.1 x.2).append_all xs).all_other j) = _
            rcases Nat.eq_or_lt_of_le (show b2.next_idx + 1 ≤ b2.max_len by
              simp only [List.length_cons] at hb; omega) with heq2 | hlt2
            · have hx : xs = [] := by
                simp only [List.length_cons] at hb
                cases xs with
                | nil => rfl
                | cons y ys => simp at hb; omega
              subst hx
              show ((b2.append_memo x.1 x.2).all_state j,
                    (b2.append_memo x.1 x.2).all_other j) = _
              rw [cpu_append_memo_all_state, cpu_append_memo_all_other,
                Function.update_noteq (by omega), Function.update_noteq (by omega)]
            · have hb2 : (b2.append_memo x.1 x.2).next_idx + xs.length
                  ≤ (b2.append_memo x.1 x.2).max_len := by
                rw [append_memo_next_idx_no_wrap b2 x.1 x.2 hlt2, cpu_append_memo_max_len]
                simp only [List.length_cons] at hb
                omega
              have hj2 : j < (b2.append_memo x.1 x.2).next_idx := by
                rw [append_memo_next_idx_no_wrap b2 x.1 x.2 hlt2]
                omega
              rw [ih2 _ j hj2 hb2, cpu_append_memo_all_state, cpu_append_memo_all_other,
                Function.update_noteq (by omega), Function.update_noteq (by omega)]
        have hb1 : (b.append_memo e.1 e.2).next_idx + t.length
            ≤ (b.append_memo e.1 e.2).max_len := by
          rw [hidx, hml]
          simp only [List.length_cons] at h
          omega
        have hj1 : b.next_idx + 0 < (b.append_memo e.1 e.2).next_idx := by
          rw [hidx]; omega
        rw [huntouched t _ (b.next_idx + 0) hj1 hb1, cpu_append_memo_all_state,
          cpu_append_memo_all_other, Nat.add_zero, Function.update_same, Function.update_same]
        rfl
      | succ k =>
        have harr : b.next_idx + (k + 1) = (b.append_memo e.1 e.2).next_idx + k := by
          rw [hidx]; omega
        rw [harr]
        have hb1 : (b.append_memo e.1 e.2).next_idx + t.length
            ≤ (b.append_memo e.1 e.2).max_len := by
          rw [hidx, hml]
          simp only [List.length_cons] at h
          omega
        have hk : k < t.length := by simp at hi; omega
        rw [ih _ hb1 k hk]
        rfl

end ReplayBufferCPU

/-! ## On-policy collect phase (src/BetaWarning/AgentZoo.py 243-268, claim C10)

`AgentPPO.select_actions` returns the pre-tanh sampled action and its noise;
`AgentPPO.update_buffer` steps the environment with `np.tanh(action)` and
appends `other = (reward * reward_scale, 0.0 if done else gamma, *action,
*noise)` — i.e. the *pre-tanh* action — together with the current state.
`sample_for_ppo` (src/Main.py 232-238) later slices the action column
`all_other[:, 2 : 2 + action_dim]` and the noise column
`all_other[:, 2 + action_dim :]`, and `update_policy` (line 305) passes that
action column to `compute__log_prob`.

The stochastic policy is an oracle `policy : ℕ → action × noise` indexed by
the global step counter, and the environment an oracle
`env_step : ℕ → next_state × reward × done`, `env_reset : ℕ → state`
(indexed by episode). -/

structure PPOStepRecord where
  executed_action : List ℚ
  state : List ℚ
  other : List ℚ

/-- `other = (reward * reward_scale, 0.0 if done else gamma, *action, *noise)`. -/
def ppo_other_row (reward_scale gamma reward : ℚ) (done : Bool)
    (action noise : List ℚ) : List ℚ :=
  [reward * reward_scale, if done then 0 else gamma] ++ action ++ noise

/-- The inner `for _ in range(max_step)` loop of `AgentPPO.update_buffer`
(lines 255-267): sample `(action, noise)`, step the environment with
`tanh(action)`, append the record, stop on `done`. -/
def ppo_episode (tanh : ℚ → ℚ) (reward_scale gamma : ℚ)
    (policy : ℕ → List ℚ × List ℚ) (env_step : ℕ → List ℚ × ℚ × Bool) :
    ℕ → List ℚ → ℕ → List PPOStepRecord
  | 0, _, _ => []
  | fuel + 1, state, t =>
    let an := policy t
    let resp := env_step t
    let stepRec : PPOStepRecord :=
      ⟨an.1.map tanh, state, ppo_other_row reward_scale gamma resp.2.1 resp.2.2 an.1 an.2⟩
    if resp.2.2 then [stepRec]
    else stepRec :: ppo_episode tanh reward_scale gamma policy env_step fuel resp.1 (t + 1)

/-- The outer `while step_counter < target_step` loop (lines 251-268);
`fuel` bounds the number of episodes (each nonempty episode advances the
counter, so any `fuel >= target_step` is exact). -/
def ppo_update_buffer_trace (tanh : ℚ → ℚ) (reward_scale gamma : ℚ)
    (policy : ℕ → List ℚ × List ℚ) (env_step : ℕ → List ℚ × ℚ × Bool)
    (env_reset : ℕ → List ℚ) (max_step target_step : ℕ) :
    ℕ → ℕ → ℕ → List PPOStepRecord
  | 0, _, _ => []
  | fuel + 1, t, e =>
    if t < target_step then
      let ep := ppo_episode tanh reward_scale gamma policy env_step max_step (env_reset e) t
      ep ++ ppo_update_buffer_trace tanh reward_scale gamma policy env_step env_reset
        max_step target_step fuel (t + ep.length) (e + 1)
    else []

/-- The action column `all_other[:, 2 : 2 + action_dim]` of `sample_for_ppo`. -/
def ppo_row_action (action_dim : ℕ) (row : List ℚ) : List ℚ :=
  (row.drop 2).take action_dim

/-- The noise column `all_other[:, 2 + action_dim :]` of `sample_for_ppo`. -/
def ppo_row_noise (action_dim : ℕ) (row : List ℚ) : List ℚ :=
  row.drop (2 + action_dim)

theorem ppo_row_action_of_row (action_dim : ℕ) (reward_scale gamma reward : ℚ)
    (done : Bool) (action noise : List ℚ) (ha : action.length = action_dim) :
    ppo_row_action action_dim (ppo_other_row reward_scale gamma reward done action noise)
      = action := by
  show ((action ++ noise).take action_dim) = action
  rw [← ha, List.take_left]

theorem ppo_row_noise_of_row (action_dim : ℕ) (reward_scale gamma reward : ℚ)
    (done : Bool) (action noise : List ℚ) (ha : action.length = action_dim) :
    ppo_row_noise action_dim (ppo_other_row reward_scale gamma reward done action noise)
      = noise := by
  unfold ppo_row_noise ppo_other_row
  rw [show 2 + action_dim = action_dim + 2 by omega]
  show ((action ++ noise).drop action_dim) = noise
  rw [← ha, List.drop_left]

/-- Every step of an episode: the `i`-th record belongs to global step
`t + i`, its executed action is `tanh` of the sampled pre-tanh action, and
its stored row is the `ppo_other_row` of that step. -/
theorem ppo_episode_getD (tanh : ℚ → ℚ) (reward_scale gamma : ℚ)
    (policy : ℕ → List ℚ × List ℚ) (env_step : ℕ → List ℚ × ℚ × Bool) :
    ∀ (fuel : ℕ) (state : List ℚ) (t : ℕ) (i : ℕ) (d : PPOStepRecord),
      i < (ppo_episode tanh reward_scale gamma policy env_step fuel state t).length →
      ((ppo_episode tanh reward_scale gamma policy env_step fuel state t).getD i d).executed_action
          = (policy (t + i)).1.map tanh ∧
      ((ppo_episode tanh reward_scale gamma policy env_step fuel state t).getD i d).other
          = ppo_other_row reward_scale gamma (env_step (t + i)).2.1 (env_step (t + i)).2.2
              (policy (t + i)).1 (policy (t + i)).2 := by
  intro fuel
  induction fuel with
  | zero => intro state t i d hi; simp [ppo_episode] at hi
  | succ f ih =>
    intro state t i d hi
    rw [ppo_episode] at hi ⊢
    by_cases hdone : (env_step t).2.2
    · rw [if_pos hdone] at hi ⊢
      have hi0 : i = 0 := by simp at hi; omega
      subst hi0
      exact ⟨rfl, rfl⟩
    · rw [if_neg hdone] at hi ⊢
      cases i with
      | zero => exact ⟨rfl, rfl⟩
      | succ k =>
        have hk : k < (ppo_episode tanh reward_scale gamma policy env_step f
            (env_step t).1 (t + 1)).length := by
          simp only [List.length_cons] at hi
          omega
        have := ih (env_step t).1 (t + 1) k d hk
        rw [List.getD_cons_succ]
        have harr : t + 1 + k = t + (k + 1) := by omega
        rw [harr] at this
        exact this

/-- Every step of the whole collect phase: the `i`-th appended record belongs
to global step `i`. -/
theorem ppo_update_buffer_trace_getD (tanh : ℚ → ℚ) (reward_scale gamma : ℚ)
    (policy : ℕ → List ℚ × List ℚ) (env_step : ℕ → List ℚ × ℚ × Bool)
    (env_reset : ℕ → List ℚ) (max_step target_step : ℕ) :
    ∀ (fuel t e i : ℕ) (d : PPOStepRecord),
      i < (ppo_update_buffer_trace tanh reward_scale gamma policy env_step env_reset
            max_step target_step fuel t e).length →
      ((ppo_update_buffer_trace tanh reward_scale gamma policy env_step env_reset
            max_step target_step fuel t e).getD i d).executed_action
          = (policy (t + i)).1.map tanh ∧
      ((ppo_update_buffer_trace tanh reward_scale gamma policy env_step env_reset
            max_step target_step fuel t e).getD i d).other
          = ppo_other_row reward_scale gamma (env_step (t + i)).2.1 (env_step (t + i)).2.2
              (policy (t + i)).1 (policy (t + i)).2 := by
  intro fuel
  induction fuel with
  | zero => intro t e i d hi; simp [ppo_update_buffer_trace] at hi
  | succ f ih =>
    intro t e i d hi
    rw [ppo_update_buffer_trace] at hi ⊢
    by_cases ht : t < target_step
    · rw [if_pos ht] at hi ⊢
      rcases Nat.lt_or_ge i (ppo_episode tanh reward_scale gamma policy env_step
          max_step (env_reset e) t).length with hlt | hge
      · rw [List.getD_append _ _ d i hlt]
        exact ppo_episode_getD tanh reward_scale gamma policy env_step
          max_step (env_reset e) t i d hlt
      · rw [List.getD_append_right _ _ d i hge]
        have hrest := ih (t + (ppo_episode tanh reward_scale gamma policy env_step
            max_step (env_reset e) t).length) (e + 1)
          (i - (ppo_episode tanh reward_scale gamma policy env_step
            max_step (env_reset e) t).length) d
          (by rw [List.length_append] at hi; omega)
        have harr : t + (ppo_episode tanh reward_scale gamma policy env_step
            max_step (env_reset e) t).length
              + (i - (ppo_episode tanh reward_scale gamma policy env_step
                  max_step (env_reset e) t).length) = t + i := by omega
        rw [harr] at hrest
        exact hrest
    · rw [if_neg ht] at hi
      simp at hi

/-- The full collect trace of `AgentPPO.update_buffer` (counter and episode
index start at 0). -/
def ppo_collect_trace (tanh : ℚ → ℚ) (reward_scale gamma : ℚ)
    (policy : ℕ → List ℚ × List ℚ) (env_step : ℕ → List ℚ × ℚ × Bool)
    (env_reset : ℕ → List ℚ) (max_step target_step fuel : ℕ) : List PPOStepRecord :=
  ppo_update_buffer_trace tanh reward_scale gamma policy env_step env_reset
    max_step target_step fuel 0 0

/-- The buffer after `AgentPPO.update_buffer`: `empty_memories__before_explore`
followed by one `append_memo` per collected step, in order. -/
def ppo_collect_buffer (b0 : ReplayBufferCPU (List ℚ) (List ℚ)) (tanh : ℚ → ℚ)
    (reward_scale gamma : ℚ) (policy : ℕ → List ℚ × List ℚ)
    (env_step : ℕ → List ℚ × ℚ × Bool) (env_reset : ℕ → List ℚ)
    (max_step target_step fuel : ℕ) : ReplayBufferCPU (List ℚ) (List ℚ) :=
  b0.empty_memories__before_explore.append_all
    ((ppo_collect_trace tanh reward_scale gamma policy env_step env_reset
        max_step target_step fuel).map (fun r => (r.state, r.other)))

theorem getD_map_state_other (l : List PPOStepRecord) (i : ℕ) (d : PPOStepRecord)
    (hi : i < l.length) :
    (l.map (fun r => (r.state, r.other))).getD i (d.state, d.other)
      = ((l.getD i d).state, (l.getD i d).other) := by
  induction l generalizing i with
  | nil => simp at hi
  | cons x t ih =>
    cases i with
    | zero => rfl
    | succ k =>
      show (t.map (fun r => (r.state, r.other))).getD k (d.state, d.other) = _
      exact ih k (by simp at hi; omega)

/-- C10: for every step of the on-policy collect phase, the action applied to
the environment is `tanh` of the action sampled by `select_actions`; the
buffer row for that step stores the pre-tanh action together with its noise;
and the `sample_for_ppo` action/noise columns of the stored row recover
exactly that pre-tanh action and noise — hence what `update_policy` passes
to `compute__log_prob` is the stored pre-tanh action, differing from the
executed action by the tanh squashing. -/
theorem c10_tanh_squash_collect (action_dim : ℕ) (tanh : ℚ → ℚ)
    (reward_scale gamma : ℚ) (policy : ℕ → List ℚ × List ℚ)
    (env_step : ℕ → List ℚ × ℚ × Bool) (env_reset : ℕ → List ℚ)
    (max_step target_step fuel : ℕ) (b0 : ReplayBufferCPU (List ℚ) (List ℚ))
    (d : PPOStepRecord)
    (hdim : ∀ k, ((policy k).1).length = action_dim)
    (hcap : (ppo_collect_trace tanh reward_scale gamma policy env_step env_reset
        max_step target_step fuel).length ≤ b0.max_len) :
    ∀ i, i < (ppo_collect_trace tanh reward_scale gamma policy env_step env_reset
        max_step target_step fuel).length →
      ((ppo_collect_trace tanh reward_scale gamma policy env_step env_reset
          max_step target_step fuel).getD i d).executed_action
        = ((policy i).1).map tanh ∧
      (ppo_collect_buffer b0 tanh reward_scale gamma policy env_step env_reset
          max_step target_step fuel).all_other i
        = ((ppo_collect_trace tanh reward_scale gamma policy env_step env_reset
            max_step target_step fuel).getD i d).other ∧
      ppo_row_action action_dim
          ((ppo_collect_buffer b0 tanh reward_scale gamma policy env_step env_reset
            max_step target_step fuel).all_other i) = (policy i).1 ∧
      ppo_row_noise action_dim
          ((ppo_collect_buffer b0 tanh reward_scale gamma policy env_step env_reset
            max_step target_step fuel).all_other i) = (policy i).2 ∧
      ((ppo_collect_trace tanh reward_scale gamma policy env_step env_reset
          max_step target_step fuel).getD i d).executed_action
        = (ppo_row_action action_dim
            ((ppo_collect_buffer b0 tanh reward_scale gamma policy env_step env_reset
              max_step target_step fuel).all_other i)).map tanh := by
  intro i hi
  have htr := ppo_update_buffer_trace_getD tanh reward_scale gamma policy env_step
    env_reset max_step target_step fuel 0 0 i d hi
  rw [Nat.zero_add] at htr
  have htr1 : ((ppo_collect_trace tanh reward_scale gamma policy env_step env_reset
      max_step target_step fuel).getD i d).executed_action
        = ((policy i).1).map tanh := htr.1
  have htr2 : ((ppo_collect_trace tanh reward_scale gamma policy env_step env_reset
      max_step target_step fuel).getD i d).other
        = ppo_other_row reward_scale gamma (env_step i).2.1 (env_step i).2.2
            (policy i).1 (policy i).2 := htr.2
  have hrow : (ppo_collect_buffer b0 tanh reward_scale gamma policy env_step env_reset
      max_step target_step fuel).all_other i
        = ((ppo_collect_trace tanh reward_scale gamma policy env_step env_reset
            max_step target_step fuel).getD i d).other := by
    have hnw := ReplayBufferCPU.append_all_no_wrap
      b0.empty_memories__before_explore
      ((ppo_collect_trace tanh reward_scale gamma policy env_step env_reset
          max_step target_step fuel).map (fun r => (r.state, r.other)))
      (by
        show 0 + ((ppo_collect_trace tanh reward_scale gamma policy env_step env_reset
            max_step target_step fuel).map (fun r => (r.state, r.other))).length
          ≤ b0.max_len
        rw [Nat.zero_add, List.length_map]
        exact hcap)
      d.state d.other i
      (by rw [List.length_map]; exact hi)
    rw [getD_map_state_other _ i d hi] at hnw
    have hsnd : (b0.empty_memories__before_explore.append_all
        ((ppo_collect_trace tanh reward_scale gamma policy env_step env_reset
            max_step target_step fuel).map (fun r => (r.state, r.other)))).all_other
          (b0.empty_memories__before_explore.next_idx + i)
        = ((ppo_collect_trace tanh reward_scale gamma policy env_step env_reset
            max_step target_step fuel).getD i d).other := congrArg Prod.snd hnw
    rw [show b0.empty_memories__before_explore.next_idx = 0 from rfl,
      Nat.zero_add] at hsnd
    exact hsnd
  refine ⟨htr1, hrow, ?_, ?_, ?_⟩
  · rw [hrow, htr2, ppo_row_action_of_row action_dim _ _ _ _ _ _ (hdim i)]
  · rw [hrow, htr2, ppo_row_noise_of_row action_dim _ _ _ _ _ _ (hdim i)]
  · rw [hrow, htr2, ppo_row_action_of_row action_dim _ _ _ _ _ _ (hdim i)]
    exact htr1

def c10_test_tanh : ℚ → ℚ := fun x => x * 2

def c10_test_policy : ℕ → List ℚ × List ℚ := fun _ => ([4], [5])

def c10_test_env_step : ℕ → List ℚ × ℚ × Bool := fun _ => ([3], 1, false)

def c10_test_env_reset : ℕ → List ℚ := fun _ => [0]

def c10_test_b0 : ReplayBufferCPU (List ℚ) (List ℚ) :=
  ReplayBufferCPU.mk_buffer 8 (fun _ => []) (fun _ => [])

def c10_test_d : PPOStepRecord := ⟨[], [], []⟩

def c10_test_trace : List PPOStepRecord :=
  ppo_collect_trace c10_test_tanh 1 (9/10) c10_test_policy c10_test_env_step
    c10_test_env_reset 2 2 2

theorem c10_tanh_squash_collect_witness :
    (∀ k, ((c10_test_policy k).1).length = 1) ∧
    c10_test_trace.length ≤ c10_test_b0.max_len ∧
    0 < c10_test_trace.length ∧
    ((c10_test_trace.getD 0 c10_test_d).executed_action
        = ((c10_test_policy 0).1).map c10_test_tanh ∧
     (ppo_collect_buffer c10_test_b0 c10_test_tanh 1 (9/10) c10_test_policy
        c10_test_env_step c10_test_env_reset 2 2 2).all_other 0
        = (c10_test_trace.getD 0 c10_test_d).other ∧
     ppo_row_action 1 ((ppo_collect_buffer c10_test_b0 c10_test_tanh 1 (9/10)
        c10_test_policy c10_test_env_step c10_test_env_reset 2 2 2).all_other 0)
        = (c10_test_policy 0).1 ∧
     ppo_row_noise 1 ((ppo_collect_buffer c10_test_b0 c10_test_tanh 1 (9/10)
        c10_test_policy c10_test_env_step c10_test_env_reset 2 2 2).all_other 0)
        = (c10_test_policy 0).2 ∧
     (c10_test_trace.getD 0 c10_test_d).executed_action
        = (ppo_row_action 1 ((ppo_collect_buffer c10_test_b0 c10_test_tanh 1 (9/10)
            c10_test_policy c10_test_env_step c10_test_env_reset 2 2 2).all_other 0)).map
            c10_test_tanh) :=
  ⟨fun _ => rfl, by decide, by decide,
    c10_tanh_squash_collect 1 c10_test_tanh 1 (9/10) c10_test_policy c10_test_env_step
      c10_test_env_reset 2 2 2 c10_test_b0 c10_test_d (fun _ => rfl) (by decide)
      0 (by decide)⟩

end ElegantRL
